import Mathlib

/-
Verification of the generic CRUD / query / pagination layer of the
template-rest-api repository.

The embedded code lives in:
  - src/app/v1/crud.py        (get_conditions, get_items, add_item,
                               update_item, raise_from_integrity_error)
  - src/app/v1/schemas.py     (Pagination.total_pages, PaginatedList.links)
  - src/app/v1/users/crud.py  (get_current_user)
  - src/app/utils.py          (split_camel_case is imported from here but its
                               definition is absent from the sources; it is
                               modelled from the spec, see below)

Python str values are embedded as Lean String, datetimes as Int ordinals,
numeric payloads as Int (the code under verification never performs
arithmetic on filter values, it only carries them into predicates, so the
exact float representation is irrelevant and a float payload is carried
opaquely).  Machine-level string operations are implemented over List Char
so that every definition evaluates inside the kernel.
-/

/-! ### Basic character-list helpers (models of Python / SQL string ops) -/

/-- Single-quote character (ASCII 39), used to build the literal error
message texts of src/app/v1/crud.py. -/
def squote : String := String.mk [Char.ofNat 39]

/-- Lower-casing of a character list; model of SQL lower(). -/
def lowerL (l : List Char) : List Char := l.map Char.toLower

/-- Containment of needle inside hay, the model of SQL
lower(x) LIKE ... concatenated with percent signs. -/
def containsSub (needle : List Char) : List Char → Bool
  | [] => needle.isEmpty
  | c :: t => needle.isPrefixOf (c :: t) || containsSub needle t

/-- Model of the SQLAlchemy icontains operator used at
src/app/v1/crud.py line 85: case-insensitive substring containment. -/
def icontainsB (hay needle : String) : Bool :=
  containsSub (lowerL needle.toList) (lowerL hay.toList)

/-- Model of the Python str.endswith check used at
src/app/v1/crud.py lines 87 and 90. -/
def endsWithL (suffix s : String) : Bool := suffix.toList.isSuffixOf s.toList

/-- Model of the Python slice k[:-4] used at src/app/v1/crud.py lines 88
and 91 (the checked suffixes _lte and _gte have length 4). -/
def dropRight4 (s : String) : String :=
  String.mk (s.toList.take (s.toList.length - 4))

/-- Model of the Python str.startswith check on the dash prefix used at
src/app/v1/crud.py line 142. -/
def startsDash (s : String) : Bool :=
  match s.toList with
  | [] => false
  | c :: _ => c = '-'

/-- Model of the Python slice sort[1:] used at src/app/v1/crud.py line 143. -/
def strDropOne (s : String) : String := String.mk (s.toList.drop 1)

/-- Model of Python str.split on a single separator character:
"a.b.c".split(".") gives ["a","b","c"], "".split(".") gives [""]. -/
def splitOnChar (c : Char) : List Char → List (List Char)
  | [] => [[]]
  | ch :: t =>
    let r := splitOnChar c t
    if ch = c then [] :: r
    else
      match r with
      | [] => [[ch]]
      | h :: t2 => (ch :: h) :: t2

/-- Model of the regular-expression searches at src/app/v1/crud.py lines 43
and 50: a lookbehind for the pattern followed by a greedy capture.  Returns
the text after the first occurrence of the pattern, or none when the
pattern does not occur in the message. -/
def findAfter (pat : List Char) : List Char → Option (List Char)
  | [] => if pat.isEmpty then some [] else none
  | c :: t =>
    if pat.isPrefixOf (c :: t) then some ((c :: t).drop pat.length)
    else findAfter pat t

/-! ### Python filter values and the filter predicate builder -/

/-- Embedding of the Python values that can arrive as filter parameters in
the kwargs of get_conditions (src/app/v1/crud.py lines 58-95). -/
inductive PyValue where
  | str (s : String)
  | intV (n : Int)
  | floatV (payload : Int)
  | boolV (b : Bool)
  | dt (t : Int)
  | listV
  | noneV
deriving DecidableEq

/-- Model of Python isinstance(v, str). -/
def PyValue.isStr : PyValue → Bool
  | .str _ => true
  | _ => false

/-- Model of Python isinstance(v, (int, float)).  Note that in Python bool
is a subclass of int, so a boolean value satisfies this check. -/
def PyValue.isNum : PyValue → Bool
  | .intV _ => true
  | .floatV _ => true
  | .boolV _ => true
  | _ => false

/-- Numeric in the narrow sense of the spec text (int or float, not bool). -/
def PyValue.isIntOrFloat : PyValue → Bool
  | .intV _ => true
  | .floatV _ => true
  | _ => false

/-- One SQLAlchemy binary expression as produced by get_conditions. -/
inductive Predicate where
  | le (field : String) (v : PyValue)
  | ge (field : String) (v : PyValue)
  | eq (field : String) (v : PyValue)
  | icontains (field : String) (s : String)
deriving DecidableEq

/-- The four reserved keys of get_conditions. -/
def reservedKeys : List String :=
  ["created_before", "updated_before", "created_after", "updated_after"]

/-- One iteration of the loop body of get_conditions
(src/app/v1/crud.py lines 75-94), which appends zero or one condition.
The branch order mirrors the source exactly: the four reserved keys first
(for any value type), then isinstance str, then isinstance (int, float)
with the _lte / _gte suffix handling, else nothing. -/
def condition_for (k : String) (v : PyValue) : Option Predicate :=
  if k = "created_before" then some (.le "created_at" v)
  else if k = "updated_before" then some (.le "updated_at" v)
  else if k = "created_after" then some (.ge "created_at" v)
  else if k = "updated_after" then some (.ge "updated_at" v)
  else
    match v with
    | .str s => some (.icontains k s)
    | .intV _ | .floatV _ | .boolV _ =>
      if endsWithL "_lte" k then some (.le (dropRight4 k) v)
      else if endsWithL "_gte" k then some (.ge (dropRight4 k) v)
      else some (.eq k v)
    | .dt _ => none
    | .listV => none
    | .noneV => none

/-- get_conditions (src/app/v1/crud.py lines 58-95): the kwargs mapping is
traversed in iteration order and each entry contributes the condition of
its loop iteration, if any. -/
def get_conditions (kwargs : List (String × PyValue)) : List Predicate :=
  kwargs.filterMap (fun kv => condition_for kv.1 kv.2)

/-! ### Evaluation of predicates over rows and the paginated fetch -/

/-- Lexicographic boolean order on character lists (database text order). -/
def lexLe : List Char → List Char → Bool
  | [], _ => true
  | _ :: _, [] => false
  | a :: as, b :: bs => if a = b then lexLe as bs else decide (a < b)

/-- Boolean comparison of column values, the model of the SQL order on the
value domains the embedded entities use. -/
def pyLeB : PyValue → PyValue → Bool
  | .intV a, .intV b => a ≤ b
  | .intV a, .floatV b => a ≤ b
  | .floatV a, .intV b => a ≤ b
  | .floatV a, .floatV b => a ≤ b
  | .dt a, .dt b => a ≤ b
  | .str a, .str b => lexLe a.toList b.toList
  | _, _ => false

/-- Truth of one SQLAlchemy condition on a row, where the row is given as a
map from column name to value. -/
def evalPred (field : String → PyValue) : Predicate → Bool
  | .le f v => pyLeB (field f) v
  | .ge f v => pyLeB v (field f)
  | .eq f v => decide (field f = v)
  | .icontains f s =>
    match field f with
    | .str hay => icontainsB hay s
    | _ => false

/-- Conjunction of all conditions built from kwargs, the model of
sqlalchemy.and_ applied at src/app/v1/crud.py lines 154 and 158. -/
def matchesConds {α : Type} (field : α → String → PyValue)
    (kwargs : List (String × PyValue)) (r : α) : Bool :=
  (get_conditions kwargs).all (fun c => evalPred (field r) c)

/-- Insertion step of the sorting model. -/
def insertLe {α : Type} (le : α → α → Bool) (x : α) : List α → List α
  | [] => [x]
  | y :: t => if le x y then x :: y :: t else y :: insertLe le x t

/-- Sorting model for the SQL ORDER BY clause. -/
def sortLe {α : Type} (le : α → α → Bool) : List α → List α
  | [] => []
  | x :: t => insertLe le x (sortLe le t)

/-- Row comparison derived from the sort parameter of get_items
(src/app/v1/crud.py lines 142-145): a leading dash selects descending
order on the remaining field name, otherwise ascending order. -/
def sortKeyLe {α : Type} (field : α → String → PyValue) (sort : String) :
    α → α → Bool :=
  if startsDash sort then
    fun a b => pyLeB (field b (strDropOne sort)) (field a (strDropOne sort))
  else
    fun a b => pyLeB (field a sort) (field b sort)

/-- get_items (src/app/v1/crud.py lines 116-161): the item query filters by
the conjunction of the conditions, orders by the sort key, skips skip rows
and keeps at most limit rows; the count query counts the rows matching the
same conditions with no offset or limit. -/
def get_items {α : Type} (field : α → String → PyValue) (rows : List α)
    (skip limit : Nat) (sort : String) (kwargs : List (String × PyValue)) :
    List α × Nat :=
  let filtered := rows.filter (matchesConds field kwargs)
  let sorted := sortLe (sortKeyLe field sort) filtered
  ((sorted.drop skip).take limit, filtered.length)

/-! ### The User entity and get_current_user -/

/-- The User table row (src/app/v1/users/schemas.py): sub, name, email and
issuer columns over the ItemID id and the created_at timestamp. -/
structure UserRow where
  id : String
  sub : String
  name : String
  email : String
  issuer : String
  created_at : Int
deriving DecidableEq

/-- Column lookup on a User row, the model of entity.__table__.c.get. -/
def userField (u : UserRow) : String → PyValue :=
  fun k =>
    if k = "id" then .str u.id
    else if k = "sub" then .str u.sub
    else if k = "name" then .str u.name
    else if k = "email" then .str u.email
    else if k = "issuer" then .str u.issuer
    else if k = "created_at" then .dt u.created_at
    else .noneV

/-- get_current_user (src/app/v1/users/crud.py lines 97-116): a get_items
call with skip 0, limit 1, sort by created_at descending and the sub and
issuer values of the authenticated identity passed as keyword filters;
returns None when the count is zero, the first returned item otherwise. -/
def get_current_user (rows : List UserRow) (sub iss : String) :
    Option UserRow :=
  let res := get_items userField rows 0 1 "-created_at"
    [("sub", .str sub), ("issuer", .str iss)]
  if res.2 = 0 then none else res.1.head?

/-! ### Pagination and navigation links -/

/-- Ceiling division on naturals, the exact value of math.ceil applied to
the rational quotient. -/
def ceil_div (a b : Nat) : Nat := (a + b - 1) / b

/-- Pagination.total_pages (src/app/v1/schemas.py lines 66-74): the ceiling
of total_elements over size, replaced by 1 when that ceiling is 0. -/
def total_pages (total_elements size : Nat) : Nat :=
  let val := ceil_div total_elements size
  if val = 0 then 1 else val

/-- A resource URL: opaque base plus ordered query parameters. -/
structure URLModel where
  base : String
  params : List (String × String)
deriving DecidableEq

/-- Model of starlette URL.remove_query_params: drops every query
parameter with the given key, keeping the others in order. -/
def remove_query_params (u : URLModel) (k : String) : URLModel :=
  ⟨u.base, u.params.filter (fun p => decide (p.1 ≠ k))⟩

/-- Model of starlette URL.include_query_params for a single key: any
existing parameters with that key are replaced, a fresh key is appended at
the end of the query string. -/
def include_query_params (u : URLModel) (k v : String) : URLModel :=
  ⟨u.base, u.params.filter (fun p => decide (p.1 ≠ k)) ++ [(k, v)]⟩

/-- PageNavigation (src/app/v1/schemas.py lines 77-89). -/
structure PageNavigation where
  first : URLModel
  prev : Option URLModel
  next : Option URLModel
  last : URLModel
deriving DecidableEq

/-- PaginatedList.links (src/app/v1/schemas.py lines 122-153): the page
query parameter is removed from the resource URL, then first, prev, next
and last links are built by re-adding page with the appropriate number;
prev only when the page number exceeds 1, next only when it is below the
total page count. -/
def links (resource_url : URLModel) (page_number page_size tot_items : Nat) :
    PageNavigation :=
  let url := remove_query_params resource_url "page"
  let tp := total_pages tot_items page_size
  let first_page := include_query_params url "page" (toString (1 : Nat))
  let prev_page :=
    if page_number > 1 then
      some (include_query_params url "page" (toString (page_number - 1)))
    else none
  let next_page :=
    if page_number < tp then
      some (include_query_params url "page" (toString (page_number + 1)))
    else none
  let last_page := include_query_params url "page" (toString tp)
  ⟨first_page, prev_page, next_page, last_page⟩

/-! ### Entity names, integrity errors, insert and update -/

/-- Modelled from the spec: split_camel_case is imported from app.utils in
src/app/v1/crud.py, but its definition is absent from the sources under
src/ (only its tests and callers are present).  Following the spec, the
identifier is split on case boundaries: a space is inserted before an
uppercase letter that follows a lowercase letter or a digit, and before an
uppercase letter that follows another uppercase letter when a lowercase
letter comes next; digit runs stay attached to the preceding token.
This helper walks the character list carrying the previous character. -/
def sccAux : Option Char → List Char → List Char
  | _, [] => []
  | prev, c :: rest =>
    let isBoundary :=
      c.isUpper &&
        (match prev with
         | none => false
         | some p =>
           (p.isLower || p.isDigit) ||
             (p.isUpper &&
               (match rest with
                | [] => false
                | n :: _ => n.isLower)))
    (if isBoundary then [' ', c] else [c]) ++ sccAux (some c) rest

/-- Modelled from the spec: the HumanReadableEntityName derivation (see
sccAux above for the splitting rule). -/
def split_camel_case (s : String) : String := String.mk (sccAux none s.toList)

/-- Domain errors raised by the constraint-violation translator:
NotNullError and ConflictError from src/app/exceptions.py. -/
inductive DomainError where
  | notNullError (msg : String)
  | conflictError (msg : String)
deriving DecidableEq

/-- Control outcome of raise_from_integrity_error: a raised domain error, a
Python IndexError when the captured text holds no dot (split and index 1),
or a plain return that swallows the failure. -/
inductive RaiseOutcome where
  | raised (e : DomainError)
  | indexError
  | swallowed
deriving DecidableEq

/-- Result of the translator together with the rollback fact; the rollback
is performed unconditionally on entry, before any error is raised. -/
structure TranslateResult where
  rolledBack : Bool
  outcome : RaiseOutcome
deriving DecidableEq

/-- Model of Python dict.get on the model_dump mapping of attempted
values. -/
def dumpGet (dump : List (String × String)) (k : String) : Option String :=
  (dump.find? (fun p => decide (p.1 = k))).map (fun p => p.2)

/-- Model of the Python f-string rendering of dict.get: None prints as the
text None. -/
def pyShowOpt : Option String → String
  | some v => v
  | none => "None"

/-- The lookbehind pattern of the regex at src/app/v1/crud.py line 43. -/
def notNullPattern : List Char := "NOT NULL constraint failed: ".toList

/-- The lookbehind pattern of the regex at src/app/v1/crud.py line 50. -/
def uniquePattern : List Char := "UNIQUE constraint failed: ".toList

/-- raise_from_integrity_error (src/app/v1/crud.py lines 20-55): roll back,
then try the NOT NULL pattern and raise NotNullError with the field taken
as the second dot-separated component of the captured text; otherwise try
the UNIQUE pattern and raise ConflictError quoting the attempted value of
that field; otherwise return without raising. -/
def raise_from_integrity_error (entityName : String)
    (itemDump : List (String × String)) (errMsg : String) : TranslateResult :=
  let element_str := split_camel_case entityName
  match findAfter notNullPattern errMsg.toList with
  | some captured =>
    match (splitOnChar '.' captured)[1]? with
    | some attr =>
      ⟨true, .raised (.notNullError
        ("Attribute " ++ squote ++ String.mk attr ++ squote ++ " of " ++
          element_str ++ " can" ++ squote ++ "t be NULL"))⟩
    | none => ⟨true, .indexError⟩
  | none =>
    match findAfter uniquePattern errMsg.toList with
    | some captured =>
      match (splitOnChar '.' captured)[1]? with
      | some attr =>
        ⟨true, .raised (.conflictError
          (element_str ++ " with " ++ String.mk attr ++ " " ++ squote ++
            pyShowOpt (dumpGet itemDump (String.mk attr)) ++ squote ++
            " already exists"))⟩
      | none => ⟨true, .indexError⟩
    | none => ⟨true, .swallowed⟩

/-- Result of one add_item call. -/
inductive AddResult where
  | created
  | raisedErr (e : DomainError)
  | pyIndexError
  | returnedNone
deriving DecidableEq

/-- Observable outcome of add_item: what the caller sees, whether the
transaction committed, and whether it was rolled back. -/
structure AddOutcome where
  result : AddResult
  committed : Bool
  rolledBack : Bool
deriving DecidableEq

/-- add_item (src/app/v1/crud.py lines 164-196).  The storage engine is
abstracted by storageError: none means the insert committed, some m means
session.add or session.commit raised an IntegrityError carrying message m,
in which case control passes to raise_from_integrity_error; when the
translator returns without raising, add_item falls off the end of the
function and returns None to its caller. -/
def add_item (entityName : String) (itemDump : List (String × String))
    (storageError : Option String) : AddOutcome :=
  match storageError with
  | none => ⟨.created, true, false⟩
  | some m =>
    let t := raise_from_integrity_error entityName itemDump m
    match t.outcome with
    | .raised e => ⟨.raisedErr e, false, t.rolledBack⟩
    | .indexError => ⟨.pyIndexError, false, t.rolledBack⟩
    | .swallowed => ⟨.returnedNone, false, t.rolledBack⟩

/-- Result of one update_item call. -/
inductive UpdateResult where
  | ok
  | noItemError (msg : String)
  | raisedErr (e : DomainError)
  | pyIndexError
  | returnedNone
deriving DecidableEq

/-- Observable outcome of update_item: the control result, whether a commit
happened, and the stored table contents after the call (uncommitted changes
are not visible). -/
structure UpdateOutcome where
  result : UpdateResult
  committed : Bool
  stored : List (String × List (String × String))
deriving DecidableEq

/-- Model of the UPDATE ... WHERE id = item_id statement executed at
src/app/v1/crud.py lines 226-231: the new values are applied to every row
whose id matches, and rowcount reports how many rows matched. -/
def execUpdate (rows : List (String × List (String × String)))
    (item_id : String) (newData : List (String × String)) :
    List (String × List (String × String)) × Nat :=
  (rows.map (fun r => if r.1 = item_id then (r.1, newData) else r),
   (rows.filter (fun r => decide (r.1 = item_id))).length)

/-- update_item (src/app/v1/crud.py lines 199-239) with updated_by not
supplied (as in src/app/v1/users/crud.py line 83).  The storage engine is
abstracted by integrityError as in add_item; when the UPDATE executes, a
zero rowcount raises NoItemToUpdateError before any commit, otherwise the
transaction commits. -/
def update_item (entityName : String)
    (rows : List (String × List (String × String))) (item_id : String)
    (newData : List (String × String)) (integrityError : Option String) :
    UpdateOutcome :=
  match integrityError with
  | some m =>
    let t := raise_from_integrity_error entityName newData m
    ⟨(match t.outcome with
      | .raised e => .raisedErr e
      | .indexError => .pyIndexError
      | .swallowed => .returnedNone), false, rows⟩
  | none =>
    let r := execUpdate rows item_id newData
    if r.2 = 0 then
      ⟨.noItemError (split_camel_case entityName ++ " with ID " ++ item_id ++
        " does not exist"), false, rows⟩
    else ⟨.ok, true, r.1⟩

/-! ### Helper lemmas -/

/-- Rebuilding a string from its character list is the identity. -/
theorem mk_toList (s : String) : String.mk s.toList = s := rfl

/-- Membership across the insertion step of the sorting model. -/
theorem mem_insertLe {α : Type} (le : α → α → Bool) (x a : α) (l : List α) :
    a ∈ insertLe le x l ↔ a = x ∨ a ∈ l := by
  induction l with
  | nil => simp [insertLe]
  | cons y t ih =>
    by_cases h : le x y = true
    · simp [insertLe, h]
    · simp [insertLe, h, ih]
      tauto

/-- Length across the insertion step of the sorting model. -/
theorem length_insertLe {α : Type} (le : α → α → Bool) (x : α) (l : List α) :
    (insertLe le x l).length = l.length + 1 := by
  induction l with
  | nil => rfl
  | cons y t ih =>
    by_cases h : le x y = true
    · simp [insertLe, h]
    · simp [insertLe, h, ih]

/-- Sorting keeps exactly the members of the list. -/
theorem mem_sortLe {α : Type} (le : α → α → Bool) (a : α) (l : List α) :
    a ∈ sortLe le l ↔ a ∈ l := by
  induction l with
  | nil => simp [sortLe]
  | cons x t ih =>
    simp [sortLe, mem_insertLe, ih]

/-- Sorting keeps the length of the list. -/
theorem length_sortLe {α : Type} (le : α → α → Bool) (l : List α) :
    (sortLe le l).length = l.length := by
  induction l with
  | nil => rfl
  | cons x t ih => simp [sortLe, length_insertLe, ih]

/-- Splitting a list free of the separator yields the single chunk. -/
theorem splitOnChar_not_mem (c : Char) (l : List Char) (h : c ∉ l) :
    splitOnChar c l = [l] := by
  induction l with
  | nil => rfl
  | cons a t ih =>
    have ha : ¬(a = c) := fun e => h (e ▸ List.mem_cons_self a t)
    have ht : c ∉ t := fun m => h (List.mem_cons_of_mem a m)
    simp [splitOnChar, ih ht, ha]

/-- Splitting at the first separator occurrence detaches the head chunk. -/
theorem splitOnChar_append (c : Char) (A B : List Char) (hA : c ∉ A) :
    splitOnChar c (A ++ c :: B) = A :: splitOnChar c B := by
  induction A with
  | nil => simp [splitOnChar]
  | cons a t ih =>
    have ha : ¬(a = c) := fun e => hA (e ▸ List.mem_cons_self a t)
    have ht : c ∉ t := fun m => hA (List.mem_cons_of_mem a m)
    simp [splitOnChar, ih ht, ha]

/-- Dropping the key from a parameter list twice equals dropping it once. -/
theorem filter_ne_idem (l : List (String × String)) (k : String) :
    (l.filter (fun p => decide (p.1 ≠ k))).filter (fun p => decide (p.1 ≠ k))
      = l.filter (fun p => decide (p.1 ≠ k)) := by
  induction l with
  | nil => rfl
  | cons a t ih =>
    by_cases h : a.1 = k
    · simp [List.filter_cons, h, ih]
    · simp [List.filter_cons, h, ih]

/-- Characterization of ceil_div as the rational ceiling: for positive b,
ceil_div a b is the least n with a ≤ b * n. -/
theorem ceil_div_spec (a b : Nat) (hb : 0 < b) :
    a ≤ b * ceil_div a b ∧ b * ceil_div a b < a + b := by
  have hdm := Nat.div_add_mod (a + b - 1) b
  have hm : (a + b - 1) % b < b := Nat.mod_lt _ hb
  unfold ceil_div
  omega

/-- The four reserved keys of get_conditions, unconditionally. -/
theorem condition_for_reserved (v : PyValue) :
    condition_for "created_before" v = some (.le "created_at" v)
  ∧ condition_for "updated_before" v = some (.le "updated_at" v)
  ∧ condition_for "created_after" v = some (.ge "created_at" v)
  ∧ condition_for "updated_after" v = some (.ge "updated_at" v) :=
  ⟨rfl, rfl, rfl, rfl⟩

/-- A non-reserved key with a string value yields the icontains condition. -/
theorem condition_for_str (k s : String)
    (h1 : k ≠ "created_before") (h2 : k ≠ "updated_before")
    (h3 : k ≠ "created_after") (h4 : k ≠ "updated_after") :
    condition_for k (.str s) = some (.icontains k s) := by
  unfold condition_for
  rw [if_neg h1, if_neg h2, if_neg h3, if_neg h4]

/-- A non-reserved key with a Python-numeric value yields the suffix-driven
comparison condition. -/
theorem condition_for_num (k : String) (v : PyValue)
    (h1 : k ≠ "created_before") (h2 : k ≠ "updated_before")
    (h3 : k ≠ "created_after") (h4 : k ≠ "updated_after")
    (hv : v.isNum = true) :
    condition_for k v =
      (if endsWithL "_lte" k then some (.le (dropRight4 k) v)
       else if endsWithL "_gte" k then some (.ge (dropRight4 k) v)
       else some (.eq k v)) := by
  unfold condition_for
  rw [if_neg h1, if_neg h2, if_neg h3, if_neg h4]
  cases v with
  | str s => exact Bool.noConfusion hv
  | intV n => rfl
  | floatV x => rfl
  | boolV b => rfl
  | dt t => exact Bool.noConfusion hv
  | listV => exact Bool.noConfusion hv
  | noneV => exact Bool.noConfusion hv

/-- A non-reserved key with a value that is neither a Python str nor
Python-numeric yields no condition. -/
theorem condition_for_other (k : String) (v : PyValue)
    (h1 : k ≠ "created_before") (h2 : k ≠ "updated_before")
    (h3 : k ≠ "created_after") (h4 : k ≠ "updated_after")
    (hs : v.isStr = false) (hn : v.isNum = false) :
    condition_for k v = none := by
  unfold condition_for
  rw [if_neg h1, if_neg h2, if_neg h3, if_neg h4]
  cases v with
  | str s => exact Bool.noConfusion hs
  | intV n => exact Bool.noConfusion hn
  | floatV x => exact Bool.noConfusion hn
  | boolV b => exact Bool.noConfusion hn
  | dt t => rfl
  | listV => rfl
  | noneV => rfl

/-- The conditions built by get_current_user: icontains on sub and issuer. -/
theorem conds_sub_issuer (sub iss : String) :
    get_conditions [("sub", .str sub), ("issuer", .str iss)]
      = [.icontains "sub" sub, .icontains "issuer" iss] := by
  unfold get_conditions
  simp [List.filterMap_cons,
    condition_for_str "sub" sub (by decide) (by decide) (by decide) (by decide),
    condition_for_str "issuer" iss (by decide) (by decide) (by decide) (by decide)]

/-- Row truth of the get_current_user filter: the stored sub contains the
queried sub and the stored issuer contains the queried issuer, both
case-insensitively. -/
theorem matches_sub_issuer (sub iss : String) (u : UserRow) :
    matchesConds userField [("sub", .str sub), ("issuer", .str iss)] u
      = (icontainsB u.sub sub && icontainsB u.issuer iss) := by
  unfold matchesConds
  rw [conds_sub_issuer]
  show (icontainsB u.sub sub && (icontainsB u.issuer iss && true)) = _
  simp

/-- A Python-numeric value in the narrow spec sense is Python-numeric. -/
theorem isNum_of_isIntOrFloat (v : PyValue) (h : v.isIntOrFloat = true) :
    v.isNum = true := by
  cases v <;> simp_all [PyValue.isIntOrFloat, PyValue.isNum]

/-- A character list beginning with e, t, g cannot begin with e, t, l. -/
theorem prefix_gte_not_lte (r : List Char)
    (h : List.isPrefixOf ['e', 't', 'g', '_'] r = true) :
    List.isPrefixOf ['e', 't', 'l', '_'] r = false := by
  rcases r with _ | ⟨a, _ | ⟨b, _ | ⟨c, r⟩⟩⟩ <;> simp_all [List.isPrefixOf]
  intro _ _ hlc
  exact absurd (h.2.2.1.trans hlc.symm) (by decide)

/-- A key ending in the gte suffix does not end in the lte suffix. -/
theorem endsWith_gte_not_lte (k : String) (h : endsWithL "_gte" k = true) :
    endsWithL "_lte" k = false :=
  prefix_gte_not_lte k.toList.reverse h

/-- Claim C1: per key in iteration order, get_conditions emits for the
reserved keys created_before / created_after a le / ge comparison on
created_at and for updated_before / updated_after the same on updated_at;
for any other key with a textual value a case-insensitive containment
predicate on the field named by the key; for a numeric value a le predicate
on the suffix-stripped field for keys ending in _lte, a ge predicate for
keys ending in _gte, and an equality predicate otherwise; and the two
concrete parameter mappings of the spec yield exactly the listed
predicates. -/
theorem claim_C1_filter_predicate_rules :
    (∀ v, condition_for "created_before" v = some (.le "created_at" v))
  ∧ (∀ v, condition_for "created_after" v = some (.ge "created_at" v))
  ∧ (∀ v, condition_for "updated_before" v = some (.le "updated_at" v))
  ∧ (∀ v, condition_for "updated_after" v = some (.ge "updated_at" v))
  ∧ (∀ k s, k ∉ reservedKeys →
      condition_for k (.str s) = some (.icontains k s))
  ∧ (∀ k v, k ∉ reservedKeys → v.isIntOrFloat = true →
      endsWithL "_lte" k = true →
      condition_for k v = some (.le (dropRight4 k) v))
  ∧ (∀ k v, k ∉ reservedKeys → v.isIntOrFloat = true →
      endsWithL "_gte" k = true →
      condition_for k v = some (.ge (dropRight4 k) v))
  ∧ (∀ k v, k ∉ reservedKeys → v.isIntOrFloat = true →
      endsWithL "_lte" k = false → endsWithL "_gte" k = false →
      condition_for k v = some (.eq k v))
  ∧ get_conditions [("name", .str "bar"), ("value", .intV 5),
      ("value_gte", .intV 1), ("value_lte", .intV 10)]
      = [.icontains "name" "bar", .eq "value" (.intV 5),
         .ge "value" (.intV 1), .le "value" (.intV 10)]
  ∧ (∀ T1 T2 T3 T4 : PyValue,
      get_conditions [("created_before", T1), ("created_after", T2),
        ("updated_before", T3), ("updated_after", T4)]
        = [.le "created_at" T1, .ge "created_at" T2,
           .le "updated_at" T3, .ge "updated_at" T4]) := by
  refine ⟨fun v => rfl, fun v => rfl, fun v => rfl, fun v => rfl,
    ?_, ?_, ?_, ?_, by decide, fun T1 T2 T3 T4 => rfl⟩
  · intro k s h
    simp [reservedKeys] at h
    exact condition_for_str k s h.1 h.2.1 h.2.2.1 h.2.2.2
  · intro k v h hv hlte
    simp [reservedKeys] at h
    rw [condition_for_num k v h.1 h.2.1 h.2.2.1 h.2.2.2
      (isNum_of_isIntOrFloat v hv), hlte]
    simp
  · intro k v h hv hgte
    simp [reservedKeys] at h
    rw [condition_for_num k v h.1 h.2.1 h.2.2.1 h.2.2.2
      (isNum_of_isIntOrFloat v hv), endsWith_gte_not_lte k hgte, hgte]
    simp
  · intro k v h hv hlte hgte
    simp [reservedKeys] at h
    rw [condition_for_num k v h.1 h.2.1 h.2.2.1 h.2.2.2
      (isNum_of_isIntOrFloat v hv), hlte, hgte]
    simp

/-- Witness for claim C1: a non-reserved key with a string value. -/
theorem claim_C1_witness :
    condition_for "name" (.str "bar") = some (.icontains "name" "bar") :=
  claim_C1_filter_predicate_rules.2.2.2.2.1 "name" "bar" (by decide)

/-- Claim C2: for every total element count and every page size at least 1,
total_pages equals the maximum of 1 and the ceiling of the quotient; in
particular an empty result set reports exactly one page. -/
theorem claim_C2_total_pages (tot size : Nat) (h : 1 ≤ size) :
    total_pages tot size = max 1 (ceil_div tot size)
  ∧ total_pages 0 size = 1 := by
  constructor
  · unfold total_pages
    by_cases h0 : ceil_div tot size = 0
    · rw [if_pos h0, h0]
      omega
    · rw [if_neg h0]
      omega
  · have h0 : ceil_div 0 size = 0 := Nat.div_eq_of_lt (by omega)
    simp [total_pages, h0]

/-- Witness for claim C2 at total 12, size 5. -/
theorem claim_C2_witness :
    total_pages 12 5 = max 1 (ceil_div 12 5) ∧ total_pages 0 5 = 1 :=
  claim_C2_total_pages 12 5 (by decide)

/-- Claim C10: the HumanReadableEntityName derivation splits on case
boundaries, including a boundary between consecutive uppercase letters and
a following lowercase letter, keeps digit runs with the preceding token,
leaves already-spaced input unchanged and maps the empty string to
itself. -/
theorem claim_C10_split_camel_case_examples :
    split_camel_case "XMLHttpRequest" = "XML Http Request"
  ∧ split_camel_case "Test123Case" = "Test123 Case"
  ∧ split_camel_case "Already Split" = "Already Split"
  ∧ split_camel_case "" = "" := by
  refine ⟨?_, ?_, ?_, ?_⟩ <;> decide

/-- Counterexample to claim C7 as stated: a boolean value for a
non-reserved key does NOT fall through silently; because Python bool is a
subclass of int, isinstance(v, (int, float)) holds and an equality
predicate is emitted. -/
theorem claim_C7_counterexample :
    get_conditions [("flag", PyValue.boolV true)] ≠ []
  ∧ get_conditions [("flag", PyValue.boolV true)]
      = [Predicate.eq "flag" (PyValue.boolV true)] := by
  refine ⟨?_, ?_⟩ <;> decide

/-- Claim C7 (amended): for every parameter mapping, a non-reserved key
whose value is neither textual nor Python-numeric, where Python-numeric
includes booleans since bool is an int subclass, produces no predicate at
all: the entry is silently ignored.  A boolean value, by contrast, is
treated as numeric and does produce a predicate. -/
theorem claim_C7_nonscalar_filter_ignored (k : String) (v : PyValue)
    (h : k ∉ reservedKeys) (hs : v.isStr = false) (hn : v.isNum = false) :
    condition_for k v = none
  ∧ condition_for k (PyValue.boolV true) ≠ none := by
  simp [reservedKeys] at h
  constructor
  · exact condition_for_other k v h.1 h.2.1 h.2.2.1 h.2.2.2 hs hn
  · rw [condition_for_num k (.boolV true) h.1 h.2.1 h.2.2.1 h.2.2.2 rfl]
    by_cases h1 : endsWithL "_lte" k = true
    · simp [h1]
    · by_cases h2 : endsWithL "_gte" k = true
      · simp [h1, h2]
      · simp [h1, h2]

/-- Witness for claim C7 at a list-valued entry under the key flag. -/
theorem claim_C7_witness :
    condition_for "flag" PyValue.listV = none
  ∧ condition_for "flag" (PyValue.boolV true) ≠ none :=
  claim_C7_nonscalar_filter_ignored "flag" PyValue.listV
    (by decide) (by decide) (by decide)

/-- The translator returns without raising when neither pattern occurs. -/
theorem raise_swallowed (ename : String) (dump : List (String × String))
    (m : String)
    (h1 : findAfter notNullPattern m.toList = none)
    (h2 : findAfter uniquePattern m.toList = none) :
    raise_from_integrity_error ename dump m = ⟨true, .swallowed⟩ := by
  unfold raise_from_integrity_error
  rw [h1, h2]

/-- Claim C8: for every raw integrity error whose message matches neither
the not-null pattern nor the uniqueness pattern, the translator rolls the
transaction back and raises nothing, so add_item returns None to its
caller: no entity is persisted, nothing is committed, and no error signal
reaches the caller. -/
theorem claim_C8_unrecognized_error_swallowed (ename : String)
    (dump : List (String × String)) (m : String)
    (h1 : findAfter notNullPattern m.toList = none)
    (h2 : findAfter uniquePattern m.toList = none) :
    add_item ename dump (some m) = ⟨.returnedNone, false, true⟩ := by
  have hr := raise_swallowed ename dump m h1 h2
  simp [add_item, hr]

/-- Witness for claim C8 at the message used by the repository tests. -/
theorem claim_C8_witness :
    add_item "DummyEntity" [("name", "foo")] (some "Some other error")
      = ⟨.returnedNone, false, true⟩ :=
  claim_C8_unrecognized_error_swallowed "DummyEntity" [("name", "foo")]
    "Some other error" (by decide) (by decide)

/-- Claim C6: when the error message matches the not-null pattern naming
table.field, the translator raises NotNullError with the exact message
Attribute (quoted field) of HumanReadableEntityName cannot be NULL; when it
matches the uniqueness pattern naming table.field, it raises ConflictError
with the exact message HumanReadableEntityName with field (quoted attempted
value) already exists; in both cases the rollback happens before the error
is raised (the result records rolledBack true). -/
theorem claim_C6_integrity_error_translation (ename : String)
    (dump : List (String × String)) (m table field v : String)
    (htab : '.' ∉ table.toList) (hfld : '.' ∉ field.toList) :
    ((findAfter notNullPattern m.toList
        = some (table.toList ++ '.' :: field.toList)) →
      raise_from_integrity_error ename dump m =
        ⟨true, .raised (.notNullError ("Attribute " ++ squote ++ field ++
          squote ++ " of " ++ split_camel_case ename ++ " can" ++ squote ++
          "t be NULL"))⟩)
  ∧ ((findAfter notNullPattern m.toList = none) →
     (findAfter uniquePattern m.toList
        = some (table.toList ++ '.' :: field.toList)) →
     dumpGet dump field = some v →
      raise_from_integrity_error ename dump m =
        ⟨true, .raised (.conflictError (split_camel_case ename ++ " with " ++
          field ++ " " ++ squote ++ v ++ squote ++ " already exists"))⟩) := by
  constructor
  · intro hNN
    simp only [raise_from_integrity_error, hNN,
      splitOnChar_append '.' table.toList field.toList htab,
      splitOnChar_not_mem '.' field.toList hfld]
    rfl
  · intro hNN hU hv
    simp only [raise_from_integrity_error, hNN, hU,
      splitOnChar_append '.' table.toList field.toList htab,
      splitOnChar_not_mem '.' field.toList hfld]
    simp only [List.getElem?_cons_succ, List.getElem?_cons_zero, mk_toList, hv]
    rfl

/-- Witness for claim C6 at the uniqueness message of the repository
tests. -/
theorem claim_C6_witness :
    raise_from_integrity_error "DummyEntity" [("name", "foo")]
      "UNIQUE constraint failed: dummyentity.name" =
      ⟨true, .raised (.conflictError (split_camel_case "DummyEntity" ++
        " with " ++ "name" ++ " " ++ squote ++ "foo" ++ squote ++
        " already exists"))⟩ :=
  (claim_C6_integrity_error_translation "DummyEntity" [("name", "foo")]
    "UNIQUE constraint failed: dummyentity.name" "dummyentity" "name" "foo"
    (by decide) (by decide)).2 (by decide) (by decide) (by decide)

/-- Claim C9: update_item on an id that matches no stored row fails with
NoItemToUpdateError whose message names the human-readable entity name and
the id, with no commit and the stored state unchanged; on an id with a
matching row the new values are applied to that row and committed. -/
theorem claim_C9_update_requires_existing_row (ename : String)
    (rows : List (String × List (String × String))) (id : String)
    (nd : List (String × String)) :
    ((∀ r ∈ rows, r.1 ≠ id) →
      update_item ename rows id nd none =
        ⟨.noItemError (split_camel_case ename ++ " with ID " ++ id ++
          " does not exist"), false, rows⟩)
  ∧ ((∃ r ∈ rows, r.1 = id) →
      update_item ename rows id nd none =
        ⟨.ok, true, rows.map (fun r => if r.1 = id then (r.1, nd) else r)⟩) := by
  constructor
  · intro h
    have hnil : rows.filter (fun r => decide (r.1 = id)) = [] := by
      rw [List.filter_eq_nil_iff]
      intro a ha
      simpa using h a ha
    simp [update_item, execUpdate, hnil]
  · rintro ⟨r0, hr0, hid⟩
    have hmem : r0 ∈ rows.filter (fun r => decide (r.1 = id)) :=
      List.mem_filter.mpr ⟨hr0, by simpa using hid⟩
    have hne : (rows.filter (fun r => decide (r.1 = id))).length ≠ 0 := by
      intro hlen
      rw [List.length_eq_zero] at hlen
      rw [hlen] at hmem
      exact absurd hmem (List.not_mem_nil r0)
    simp [update_item, execUpdate, hne]

/-- Witness for claim C9: updating a missing id leaves the row set as it
was and reports the missing item. -/
theorem claim_C9_witness :
    update_item "DummyEntity" [("a1", [("name", "x")])] "b2"
        [("name", "y")] none =
      ⟨.noItemError (split_camel_case "DummyEntity" ++ " with ID " ++ "b2" ++
        " does not exist"), false, [("a1", [("name", "x")])]⟩ :=
  (claim_C9_update_requires_existing_row "DummyEntity"
    [("a1", [("name", "x")])] "b2" [("name", "y")]).1 (by decide)

/-- Claim C5: the count returned by get_items is computed over exactly the
same condition set as the item query with no offset or limit applied, so
for a filter matching N rows and a page size k below N, get_items returns
k items while the count stays N. -/
theorem claim_C5_count_independent_of_pagination {α : Type}
    (field : α → String → PyValue) (rows : List α) (skip limit : Nat)
    (sort : String) (kwargs : List (String × PyValue)) (k : Nat)
    (hk : k < (rows.filter (matchesConds field kwargs)).length) :
    (get_items field rows skip limit sort kwargs).2
      = (rows.filter (matchesConds field kwargs)).length
  ∧ (get_items field rows 0 k sort kwargs).1.length = k
  ∧ (get_items field rows 0 k sort kwargs).2
      = (rows.filter (matchesConds field kwargs)).length := by
  refine ⟨rfl, ?_, rfl⟩
  show (((sortLe (sortKeyLe field sort)
      (rows.filter (matchesConds field kwargs))).drop 0).take k).length = k
  rw [List.drop_zero, List.length_take, length_sortLe]
  omega

/-- Witness for claim C5: two rows match the empty filter, page size 1. -/
theorem claim_C5_witness :
    (get_items userField
        [UserRow.mk "a" "s1" "n1" "e1" "i1" 0,
         UserRow.mk "b" "s2" "n2" "e2" "i2" 1]
        0 1 "created_at" []).1.length = 1 :=
  (claim_C5_count_independent_of_pagination userField
    [UserRow.mk "a" "s1" "n1" "e1" "i1" 0,
     UserRow.mk "b" "s2" "n2" "e2" "i2" 1]
    0 1 "created_at" [] 1 (by decide)).2.1

/-- Claim C3: in the assembled navigation links, first always carries
page 1 and last always carries page total_pages; prev is present with page
number minus one exactly when the page number exceeds 1 and absent
otherwise; next is present with page number plus one exactly when the page
number is below total_pages and absent otherwise; and every query
parameter of the resource URL other than page is preserved unchanged in
each link. -/
theorem claim_C3_navigation_links (u : URLModel) (pn sz tot : Nat)
    (_hpn : 1 ≤ pn) (_hsz : 1 ≤ sz) :
    (links u pn sz tot).first
      = ⟨u.base, u.params.filter (fun p => decide (p.1 ≠ "page"))
          ++ [("page", toString (1 : Nat))]⟩
  ∧ (links u pn sz tot).last
      = ⟨u.base, u.params.filter (fun p => decide (p.1 ≠ "page"))
          ++ [("page", toString (total_pages tot sz))]⟩
  ∧ (1 < pn →
      (links u pn sz tot).prev
        = some ⟨u.base, u.params.filter (fun p => decide (p.1 ≠ "page"))
            ++ [("page", toString (pn - 1))]⟩)
  ∧ (¬ 1 < pn → (links u pn sz tot).prev = none)
  ∧ (pn < total_pages tot sz →
      (links u pn sz tot).next
        = some ⟨u.base, u.params.filter (fun p => decide (p.1 ≠ "page"))
            ++ [("page", toString (pn + 1))]⟩)
  ∧ (¬ pn < total_pages tot sz → (links u pn sz tot).next = none) := by
  refine ⟨?_, ?_, ?_, ?_, ?_, ?_⟩
  · show include_query_params (remove_query_params u "page") "page"
        (toString (1 : Nat)) = _
    unfold include_query_params remove_query_params
    rw [filter_ne_idem]
  · show include_query_params (remove_query_params u "page") "page"
        (toString (total_pages tot sz)) = _
    unfold include_query_params remove_query_params
    rw [filter_ne_idem]
  · intro h
    show (if pn > 1 then
        some (include_query_params (remove_query_params u "page") "page"
          (toString (pn - 1)))
      else none) = _
    rw [if_pos h]
    unfold include_query_params remove_query_params
    rw [filter_ne_idem]
  · intro h
    show (if pn > 1 then
        some (include_query_params (remove_query_params u "page") "page"
          (toString (pn - 1)))
      else none) = none
    rw [if_neg h]
  · intro h
    show (if pn < total_pages tot sz then
        some (include_query_params (remove_query_params u "page") "page"
          (toString (pn + 1)))
      else none) = _
    rw [if_pos h]
    unfold include_query_params remove_query_params
    rw [filter_ne_idem]
  · intro h
    show (if pn < total_pages tot sz then
        some (include_query_params (remove_query_params u "page") "page"
          (toString (pn + 1)))
      else none) = none
    rw [if_neg h]

/-- Witness for claim C3 on a URL with an extra query parameter, page 2 of
3 (size 5, 12 elements): prev points at page 1 and keeps the parameter. -/
theorem claim_C3_witness :
    (links ⟨"http://x/api", [("q", "z"), ("page", "3")]⟩ 2 5 12).prev
      = some ⟨"http://x/api", [("q", "z"), ("page", "1")]⟩ :=
  (claim_C3_navigation_links ⟨"http://x/api", [("q", "z"), ("page", "3")]⟩
    2 5 12 (by decide) (by decide)).2.2.1 (by decide)

/-- Counterexample to claim C4 as stated: get_current_user filters sub and
issuer through the string branch of get_conditions, which emits a
case-insensitive CONTAINMENT predicate, not an equality predicate; a
stored user whose sub merely contains the requested subject is returned,
although no stored user has a sub equal to the requested subject. -/
theorem claim_C4_counterexample :
    get_current_user [UserRow.mk "u1" "asubx" "nm" "em" "https://i" 0]
        "sub" "https://i"
      = some (UserRow.mk "u1" "asubx" "nm" "em" "https://i" 0)
  ∧ (UserRow.mk "u1" "asubx" "nm" "em" "https://i" 0).sub ≠ "sub" := by
  refine ⟨?_, ?_⟩ <;> decide

/-- Claim C4 (amended): get_current_user is the paginated fetch with a
case-insensitive substring-containment filter on sub and issuer (not an
equality filter), page size 1, sorted by created_at descending, returning
the first item when the matching count is non-zero and absent otherwise;
hence it returns a stored user whose sub contains the given subject and
whose issuer contains the given issuer, case-insensitively, or absent when
no stored user satisfies both containments. -/
theorem claim_C4_find_by_identity (rows : List UserRow) (sub iss : String) :
    (∀ u, get_current_user rows sub iss = some u →
      u ∈ rows ∧ icontainsB u.sub sub = true ∧ icontainsB u.issuer iss = true)
  ∧ (get_current_user rows sub iss = none →
      ∀ u ∈ rows,
        ¬(icontainsB u.sub sub = true ∧ icontainsB u.issuer iss = true)) := by
  have hgcu : get_current_user rows sub iss =
      (if (rows.filter (matchesConds userField
          [("sub", PyValue.str sub), ("issuer", PyValue.str iss)])).length = 0
       then none
       else ((sortLe (sortKeyLe userField "-created_at")
          (rows.filter (matchesConds userField
            [("sub", PyValue.str sub),
             ("issuer", PyValue.str iss)]))).drop 0 |>.take 1).head?) := rfl
  constructor
  · intro u hu
    rw [hgcu] at hu
    by_cases hc : (rows.filter (matchesConds userField
        [("sub", PyValue.str sub), ("issuer", PyValue.str iss)])).length = 0
    · rw [if_pos hc] at hu
      exact Option.noConfusion hu
    · rw [if_neg hc, List.drop_zero] at hu
      cases hS : sortLe (sortKeyLe userField "-created_at")
          (rows.filter (matchesConds userField
            [("sub", PyValue.str sub), ("issuer", PyValue.str iss)])) with
      | nil =>
        rw [hS] at hu
        exact Option.noConfusion hu
      | cons a t =>
        rw [hS] at hu
        have hau : a = u := Option.some.inj hu
        subst hau
        have hmemS : a ∈ sortLe (sortKeyLe userField "-created_at")
            (rows.filter (matchesConds userField
              [("sub", PyValue.str sub), ("issuer", PyValue.str iss)])) := by
          rw [hS]
          exact List.mem_cons_self a t
        have hmemF := (mem_sortLe (sortKeyLe userField "-created_at") a
          (rows.filter (matchesConds userField
            [("sub", PyValue.str sub), ("issuer", PyValue.str iss)]))).mp hmemS
        have hsplit := List.mem_filter.mp hmemF
        have hmatch := hsplit.2
        rw [matches_sub_issuer, Bool.and_eq_true] at hmatch
        exact ⟨hsplit.1, hmatch.1, hmatch.2⟩
  · intro hn u hu hcon
    have hmatch : matchesConds userField
        [("sub", PyValue.str sub), ("issuer", PyValue.str iss)] u = true := by
      rw [matches_sub_issuer, hcon.1, hcon.2]
      rfl
    have hmem : u ∈ rows.filter (matchesConds userField
        [("sub", PyValue.str sub), ("issuer", PyValue.str iss)]) :=
      List.mem_filter.mpr ⟨hu, hmatch⟩
    have hlen : (rows.filter (matchesConds userField
        [("sub", PyValue.str sub), ("issuer", PyValue.str iss)])).length ≠ 0 := by
      intro h0
      rw [List.length_eq_zero] at h0
      rw [h0] at hmem
      exact absurd hmem (List.not_mem_nil u)
    rw [hgcu, if_neg hlen, List.drop_zero] at hn
    cases hS : sortLe (sortKeyLe userField "-created_at")
        (rows.filter (matchesConds userField
          [("sub", PyValue.str sub), ("issuer", PyValue.str iss)])) with
    | nil =>
      have hl := length_sortLe (sortKeyLe userField "-created_at")
        (rows.filter (matchesConds userField
          [("sub", PyValue.str sub), ("issuer", PyValue.str iss)]))
      rw [hS] at hl
      exact hlen hl.symm
    | cons a t =>
      rw [hS] at hn
      exact Option.noConfusion hn

/-- Witness for claim C4 at a singleton row set. -/
theorem claim_C4_witness :
    UserRow.mk "u1" "asubx" "nm" "em" "https://i" 0 ∈
        [UserRow.mk "u1" "asubx" "nm" "em" "https://i" 0]
  ∧ icontainsB "asubx" "sub" = true
  ∧ icontainsB "https://i" "https://i" = true :=
  (claim_C4_find_by_identity
    [UserRow.mk "u1" "asubx" "nm" "em" "https://i" 0] "sub" "https://i").1
    (UserRow.mk "u1" "asubx" "nm" "em" "https://i" 0) (by decide)
